import Mathlib

/-!
Verification of the IT-cortex temporal dynamics engine and neuron
firing-rate aggregator (ITCortex repository).

The development shallowly embeds:
  * `integrate` — the generic single-step Euler integrator
    (src/Dynamics/tamura_dynamic_profile.py, `integrate`);
  * the `TamuraDynamics` class: latency model, history buffer,
    dual-phase LTI dynamics and the per-step update `get_dynamic_rates`;
  * the `Neuron` aggregator's static-rate computation and `firing_rate`
    (src/it_neuron_vrep.py).

Real-valued quantities are modelled over `ℝ` (the latency map uses the
exponential); buffer indices over `ℤ`/`ℕ`; history memory as functions
`ℕ → ℝ` updated at the cursor, with the in-bounds property of every
computed index proved separately.
-/

namespace ITCortex

/-! ### History-buffer index computation

`TamuraDynamics._get_index`:
```
index = self.memory_index - np.minimum(latency_steps, self.early_memory.shape[1])
index[index < 0] = index[index < 0] + self.early_memory.shape[1]
```
`memory_index` is the cursor, `shape[1]` the buffer length. -/

/-- Embedding of `TamuraDynamics._get_index`: subtract the clamped delay
from the cursor and add the buffer length once if the result is negative. -/
def get_index (cursor : ℕ) (steps : ℕ) (length : ℕ) : ℤ :=
  let i : ℤ := (cursor : ℤ) - min (steps : ℤ) (length : ℤ)
  if i < 0 then i + length else i

/-! ### Latency model

`TamuraDynamics._get_latencies`:
```
return self.min_latencies + (self.max_latencies - self.min_latencies)*np.exp(-static_rates/self.tau_latencies)
``` -/

/-- Embedding of `TamuraDynamics._get_latencies`. -/
noncomputable def get_latencies (min_latency max_latency tau_latency static_rate : ℝ) : ℝ :=
  min_latency + (max_latency - min_latency) * Real.exp (-static_rate / tau_latency)




/-- Helper fact kept general: the unclamped difference lies in
`(-length, length)` so one conditional add of `length` lands in range,
and the result agrees with true modular reduction. -/
theorem get_index_eq_emod (cursor steps length : ℕ)
    (hc : cursor < length) :
    get_index cursor steps length =
      ((cursor : ℤ) - min (steps : ℤ) (length : ℤ)) % (length : ℤ) := by
  unfold get_index
  have hlen : (0 : ℤ) < (length : ℤ) := by exact_mod_cast Nat.pos_of_ne_zero (by omega)
  have hmin_nonneg : (0 : ℤ) ≤ min (steps : ℤ) (length : ℤ) :=
    le_min (Int.ofNat_nonneg _) (Int.ofNat_nonneg _)
  have hmin_le : min (steps : ℤ) (length : ℤ) ≤ (length : ℤ) := min_le_right _ _
  set d : ℤ := (cursor : ℤ) - min (steps : ℤ) (length : ℤ) with hd
  have hclt : (cursor : ℤ) < (length : ℤ) := by exact_mod_cast hc
  by_cases hneg : d < 0
  · simp only [hneg, if_true]
    have h2 : (d + (length : ℤ)) % (length : ℤ) = d % (length : ℤ) := by
      have h3 := Int.add_mul_emod_self_left d (length : ℤ) 1
      rwa [mul_one] at h3
    rw [← h2, Int.emod_eq_of_lt (by omega) (by omega)]
  · simp only [hneg, if_false]
    rw [Int.emod_eq_of_lt (by omega) (by omega)]

/-- In-range bounds for `get_index` (helper). -/
theorem get_index_bounds (cursor steps length : ℕ)
    (hc : cursor < length) :
    0 ≤ get_index cursor steps length ∧ get_index cursor steps length < (length : ℤ) := by
  unfold get_index
  have hmin_nonneg : (0 : ℤ) ≤ min (steps : ℤ) (length : ℤ) :=
    le_min (Int.ofNat_nonneg _) (Int.ofNat_nonneg _)
  have hmin_le : min (steps : ℤ) (length : ℤ) ≤ (length : ℤ) := min_le_right _ _
  have hclt : (cursor : ℤ) < (length : ℤ) := by exact_mod_cast hc
  by_cases hneg : (cursor : ℤ) - min (steps : ℤ) (length : ℤ) < 0
  · simp only [hneg, if_true]
    constructor <;> omega
  · simp only [hneg, if_false]
    constructor <;> omega

/-- C5: for every requested delay `k ≥ 0` (a natural number) and every
cursor position in `[0, buffer_length)`, the delayed-sample index computed
by `_get_index` equals `(cursor - min(k, buffer_length)) mod buffer_length`
and lies within `[0, buffer_length)`, so a history-buffer lookup is never
out of bounds. -/
theorem claim_C5_index_in_bounds (cursor k length : ℕ) (hc : cursor < length) :
    0 ≤ get_index cursor k length ∧
    get_index cursor k length < (length : ℤ) ∧
    get_index cursor k length =
      ((cursor : ℤ) - min (k : ℤ) (length : ℤ)) % (length : ℤ) :=
  ⟨(get_index_bounds cursor k length hc).1,
   (get_index_bounds cursor k length hc).2,
   get_index_eq_emod cursor k length hc⟩

/-- Witness for C5 at cursor 3, delay 100, buffer length 61. -/
theorem claim_C5_index_in_bounds_witness :
    3 < 61 ∧
    (0 ≤ get_index 3 100 61 ∧ get_index 3 100 61 < (61 : ℤ) ∧
     get_index 3 100 61 = ((3 : ℤ) - min (100 : ℤ) (61 : ℤ)) % (61 : ℤ)) :=
  ⟨by decide, claim_C5_index_in_bounds 3 100 61 (by decide)⟩

/-- C2: for every `static_rate ≥ 0` the latency function returns exactly
`min_latency + (max_latency - min_latency) * exp(-static_rate / tau_latency)`;
it is monotonically non-increasing in the static rate, and its value lies
within `[min_latency, max_latency]`, assuming `min_latency ≤ max_latency`
and `tau_latency > 0`. -/
theorem claim_C2_latency_formula_monotone_bounded
    (minL maxL tauL r1 r2 : ℝ) (hminmax : minL ≤ maxL) (htau : 0 < tauL)
    (hr1 : 0 ≤ r1) (hr12 : r1 ≤ r2) :
    get_latencies minL maxL tauL r1 =
      minL + (maxL - minL) * Real.exp (-r1 / tauL) ∧
    get_latencies minL maxL tauL r2 ≤ get_latencies minL maxL tauL r1 ∧
    minL ≤ get_latencies minL maxL tauL r1 ∧
    get_latencies minL maxL tauL r1 ≤ maxL := by
  have hdiff : 0 ≤ maxL - minL := by linarith
  have hexp_pos1 : 0 < Real.exp (-r1 / tauL) := Real.exp_pos _
  have hexp_le_one : Real.exp (-r1 / tauL) ≤ 1 := by
    rw [Real.exp_le_one_iff]
    apply div_nonpos_of_nonpos_of_nonneg <;> linarith
  have hmono : Real.exp (-r2 / tauL) ≤ Real.exp (-r1 / tauL) := by
    rw [Real.exp_le_exp]
    rw [div_le_div_iff₀ htau htau]
    nlinarith
  refine ⟨rfl, ?_, ?_, ?_⟩
  · unfold get_latencies
    have := mul_le_mul_of_nonneg_left hmono hdiff
    linarith
  · unfold get_latencies
    nlinarith
  · unfold get_latencies
    nlinarith

/-- Witness for C2 at `min_latency = 0.09`, `max_latency = 0.25`,
`tau_latency = 40`, rates `0 ≤ 5`. -/
theorem claim_C2_latency_formula_monotone_bounded_witness :
    (0.09 : ℝ) ≤ 0.25 ∧ (0 : ℝ) < 40 ∧ (0 : ℝ) ≤ 0 ∧ (0 : ℝ) ≤ 5 ∧
    (get_latencies 0.09 0.25 40 0 =
       0.09 + (0.25 - 0.09) * Real.exp (-0 / 40) ∧
     get_latencies 0.09 0.25 40 5 ≤ get_latencies 0.09 0.25 40 0 ∧
     (0.09 : ℝ) ≤ get_latencies 0.09 0.25 40 0 ∧
     get_latencies 0.09 0.25 40 0 ≤ 0.25) :=
  ⟨by norm_num, by norm_num, le_refl _, by norm_num,
   claim_C2_latency_formula_monotone_bounded 0.09 0.25 40 0 5
     (by norm_num) (by norm_num) (le_refl _) (by norm_num)⟩


/-! ### Euler integrator

`integrate` (src/Dynamics/tamura_dynamic_profile.py, lines 19-35):
```
dxdt = np.dot(a,x) + np.dot(b,u)
x = x + dxdt*dt
y = np.dot(c,x)
return x, y
``` -/

/-- Embedding of `integrate`: one explicit Euler step of the state-space
system, returning the updated state and the output read from the updated
state. -/
noncomputable def integrate {n : ℕ} (dt : ℝ) (a : Matrix (Fin n) (Fin n) ℝ)
    (b : Fin n → ℝ) (c : Fin n → ℝ) (x : Fin n → ℝ) (u : ℝ) :
    (Fin n → ℝ) × ℝ :=
  let dxdt := a.mulVec x + u • b
  let x1 := x + dt • dxdt
  (x1, Matrix.dotProduct c x1)

/-! ### Dual-phase dynamics engine (`TamuraDynamics`) -/

/-- `self.late_additional_latency = 10`. -/
def late_additional_latency : ℕ := 10

/-- `early_gain = 1.5/0.39`. -/
noncomputable def early_gain : ℝ := 1.5 / 0.39

/-- `late_gain = 1`. -/
noncomputable def late_gain : ℝ := 1

/-- `self.early_A = np.array([[-1, 0], [1, -1]])`. -/
noncomputable def early_A : Matrix (Fin 2) (Fin 2) ℝ := !![-1, 0; 1, -1]

/-- `self.early_B = np.array([1, 0])`. -/
noncomputable def early_B : Fin 2 → ℝ := ![1, 0]

/-- `self.early_C = np.array([early_gain, -early_gain])`. -/
noncomputable def early_C : Fin 2 → ℝ := ![early_gain, -early_gain]

/-- `self.late_A = -1` (1-dimensional system written as a 1×1 matrix). -/
noncomputable def late_A : Matrix (Fin 1) (Fin 1) ℝ := !![-1]

/-- `self.late_B = 1`. -/
noncomputable def late_B : Fin 1 → ℝ := ![1]

/-- `self.late_C = late_gain`. -/
noncomputable def late_C : Fin 1 → ℝ := ![late_gain]

/-- Per-neuron parameters of `TamuraDynamics` fixed at construction:
time step, latency-map parameters and the two LTI time constants, plus the
history-buffer length (`early_memory.shape[1]`). -/
structure TamuraParams where
  dt : ℝ
  min_latency : ℝ
  max_latency : ℝ
  tau_latency : ℝ
  early_tau : ℝ
  late_tau : ℝ
  memory_length : ℕ

/-- Mutable state of `TamuraDynamics`: the two input-history memories,
the shared write cursor `memory_index`, and the early/late LTI states. -/
structure TamuraState where
  early_memory : ℕ → ℝ
  late_memory : ℕ → ℝ
  memory_index : ℕ
  early_x : Fin 2 → ℝ
  late_x : Fin 1 → ℝ

/-- The freshly constructed state: `np.zeros` memories and LTI states,
`memory_index = 0`. -/
noncomputable def initial_state : TamuraState where
  early_memory := fun _ => 0
  late_memory := fun _ => 0
  memory_index := 0
  early_x := fun _ => 0
  late_x := fun _ => 0

/-- `np.rint` rounding (round half to even), used in
`latency_steps = np.rint(latencies / self.dt).astype('int')`. -/
noncomputable def rint (x : ℝ) : ℤ :=
  if Int.fract x < 1 / 2 then ⌊x⌋
  else if Int.fract x = 1 / 2 then (if 2 ∣ ⌊x⌋ then ⌊x⌋ else ⌊x⌋ + 1)
  else ⌊x⌋ + 1

/-- Reading a delayed sample: index the memory at the position computed by
`_get_index` for the requested delay. -/
noncomputable def read_delayed (length : ℕ) (memory : ℕ → ℝ) (cursor k : ℕ) : ℝ :=
  memory (get_index cursor k length).toNat

/-- Embedding of `TamuraDynamics._get_lagged_rates`: convert the latency to
a step count, look the early sample up at that delay and the late sample up
at that delay plus `late_additional_latency`. -/
noncomputable def get_lagged_rates (p : TamuraParams) (s : TamuraState)
    (latency : ℝ) : ℝ × ℝ :=
  let latency_steps := (rint (latency / p.dt)).toNat
  (read_delayed p.memory_length s.early_memory s.memory_index latency_steps,
   read_delayed p.memory_length s.late_memory s.memory_index
     (latency_steps + late_additional_latency))

/-- Embedding of `TamuraDynamics._step_dynamics`: one Euler step of each of
the two LTI systems (structural matrices scaled by the reciprocal time
constants) and the combination `max(0, early_y) + late_y`. -/
noncomputable def step_dynamics (p : TamuraParams) (early_x : Fin 2 → ℝ)
    (late_x : Fin 1 → ℝ) (early_u late_u : ℝ) :
    ((Fin 2 → ℝ) × (Fin 1 → ℝ)) × ℝ :=
  let er := integrate p.dt ((1 / p.early_tau) • early_A)
    ((1 / p.early_tau) • early_B) early_C early_x early_u
  let lr := integrate p.dt ((1 / p.late_tau) • late_A)
    ((1 / p.late_tau) • late_B) late_C late_x late_u
  ((er.1, lr.1), max 0 er.2 + lr.2)

/-- Writing the current inputs into both memories at the cursor
(`self.early_memory[:, self.memory_index] = early_rates` and likewise for
the late memory). -/
noncomputable def write_inputs (s : TamuraState) (early_rates late_rates : ℝ) :
    TamuraState :=
  { s with
    early_memory := Function.update s.early_memory s.memory_index early_rates
    late_memory := Function.update s.late_memory s.memory_index late_rates }

/-- Cursor advance: `memory_index += 1; if memory_index == length: memory_index = 0`. -/
def advance_index (length idx : ℕ) : ℕ :=
  if idx + 1 = length then 0 else idx + 1

/-- Embedding of `TamuraDynamics.get_dynamic_rates`: write the inputs at
the cursor, compute the latency from the early rate, fetch the lagged
inputs, advance the cursor, then run one step of the dual-phase dynamics;
returns the new state and the instantaneous rate. -/
noncomputable def get_dynamic_rates (p : TamuraParams) (s : TamuraState)
    (early_rates late_rates : ℝ) : TamuraState × ℝ :=
  let s1 := write_inputs s early_rates late_rates
  let latency := get_latencies p.min_latency p.max_latency p.tau_latency early_rates
  let lagged := get_lagged_rates p s1 latency
  let stepped := step_dynamics p s.early_x s.late_x lagged.1 lagged.2
  ({ s1 with
      memory_index := advance_index p.memory_length s.memory_index
      early_x := stepped.1.1
      late_x := stepped.1.2 },
   stepped.2)

/-- C1: the instantaneous rate returned by the per-step update equals
`max(0, early_output) + late_output`, where `early_output` is the early
band-pass LTI system's output after one Euler step on the delayed early
input, `late_output` is the late low-pass LTI system's output after one
Euler step on the delayed late input; the early output is clipped at zero
before combining and the late output is never clipped. -/
theorem claim_C1_output_clipping (p : TamuraParams) (s : TamuraState)
    (early_rates late_rates : ℝ) :
    (get_dynamic_rates p s early_rates late_rates).2 =
      max 0 (integrate p.dt ((1 / p.early_tau) • early_A)
          ((1 / p.early_tau) • early_B) early_C s.early_x
          (get_lagged_rates p (write_inputs s early_rates late_rates)
            (get_latencies p.min_latency p.max_latency p.tau_latency
              early_rates)).1).2 +
      (integrate p.dt ((1 / p.late_tau) • late_A)
          ((1 / p.late_tau) • late_B) late_C s.late_x
          (get_lagged_rates p (write_inputs s early_rates late_rates)
            (get_latencies p.min_latency p.max_latency p.tau_latency
              early_rates)).2).2 := rfl


/-- The Euler integrator maps zero state and zero input to zero state and
zero output (helper). -/
theorem integrate_zero {n : ℕ} (dt : ℝ) (a : Matrix (Fin n) (Fin n) ℝ)
    (b c : Fin n → ℝ) : integrate dt a b c 0 0 = (0, 0) := by
  unfold integrate
  simp

/-- All-zero engine state: both memories, both LTI states (the cursor may
be anywhere). -/
def ZeroState (s : TamuraState) : Prop :=
  (∀ i, s.early_memory i = 0) ∧ (∀ i, s.late_memory i = 0) ∧
  s.early_x = 0 ∧ s.late_x = 0

/-- One zero-input call preserves the all-zero state and outputs 0 (helper). -/
theorem zero_state_step (p : TamuraParams) (s : TamuraState) (h : ZeroState s) :
    ZeroState (get_dynamic_rates p s 0 0).1 ∧ (get_dynamic_rates p s 0 0).2 = 0 := by
  obtain ⟨hem, hlm, hex, hlx⟩ := h
  have hem' : ∀ i, (write_inputs s 0 0).early_memory i = 0 := by
    intro i
    simp only [write_inputs, Function.update_apply]
    split <;> simp [hem]
  have hlm' : ∀ i, (write_inputs s 0 0).late_memory i = 0 := by
    intro i
    simp only [write_inputs, Function.update_apply]
    split <;> simp [hlm]
  have hlag : ∀ latency, get_lagged_rates p (write_inputs s 0 0) latency = (0, 0) := by
    intro latency
    unfold get_lagged_rates read_delayed
    simp only [hem', hlm']
  have hstep : step_dynamics p s.early_x s.late_x 0 0 = ((0, 0), 0) := by
    unfold step_dynamics
    rw [hex, hlx, integrate_zero, integrate_zero]
    norm_num
  constructor
  · refine ⟨?_, ?_, ?_, ?_⟩ <;>
      simp only [get_dynamic_rates, hlag, hstep] <;>
      simp [hem', hlm']
  · simp only [get_dynamic_rates, hlag, hstep]

/-- Iterated zero-input calls starting from the freshly constructed
engine state. -/
noncomputable def run_zero (p : TamuraParams) : ℕ → TamuraState
  | 0 => initial_state
  | n + 1 => (get_dynamic_rates p (run_zero p n) 0 0).1

/-- The all-zero invariant holds along the whole zero-input run (helper). -/
theorem run_zero_invariant (p : TamuraParams) (n : ℕ) : ZeroState (run_zero p n) := by
  induction n with
  | zero =>
      refine ⟨fun i => rfl, fun i => rfl, ?_, ?_⟩ <;> rfl
  | succ m ih =>
      exact (zero_state_step p (run_zero p m) ih).1

/-- C10: zero fixed point of the dynamics engine — starting from the
freshly constructed (zero-initialized) engine, every call of the per-step
update with early and late input rates both 0 returns 0, for any number of
consecutive such calls. -/
theorem claim_C10_zero_fixed_point (p : TamuraParams) (n : ℕ) :
    (get_dynamic_rates p (run_zero p n) 0 0).2 = 0 :=
  (zero_state_step p (run_zero p n) (run_zero_invariant p n)).2

/-- The per-call evolution of the early memory and the cursor inside
`get_dynamic_rates` is exactly: write at the cursor, then advance the
cursor (helper, definitional). -/
theorem get_dynamic_rates_memory_step (p : TamuraParams) (s : TamuraState)
    (early_rates late_rates : ℝ) :
    (get_dynamic_rates p s early_rates late_rates).1.early_memory =
      Function.update s.early_memory s.memory_index early_rates ∧
    (get_dynamic_rates p s early_rates late_rates).1.memory_index =
      advance_index p.memory_length s.memory_index :=
  ⟨rfl, rfl⟩

/-- Memory contents and cursor after `n` successive per-step writes of the
values `v 0, v 1, ...` into one history sequence of the given length,
starting from the zero-initialized memory and cursor 0 — the write/advance
discipline of `get_dynamic_rates`. -/
noncomputable def write_trace (length : ℕ) (v : ℕ → ℝ) : ℕ → (ℕ → ℝ) × ℕ
  | 0 => (fun _ => 0, 0)
  | n + 1 =>
    let prev := write_trace length v n
    (Function.update prev.1 prev.2 (v n), advance_index length prev.2)

/-- While fewer writes than the buffer length have happened, the cursor
equals the number of writes (helper). -/
theorem write_trace_cursor (length : ℕ) (v : ℕ → ℝ) (n : ℕ) (h : n < length) :
    (write_trace length v n).2 = n := by
  induction n with
  | zero => rfl
  | succ m ih =>
      have hm : m < length := by omega
      show advance_index length (write_trace length v m).2 = m + 1
      rw [ih hm]
      unfold advance_index
      rw [if_neg (by omega)]

/-- While at most `length` writes have happened, slot `j` holds `v j` for
`j` below the number of writes and the initial 0 otherwise (helper). -/
theorem write_trace_memory (length : ℕ) (v : ℕ → ℝ) (n : ℕ) (h : n ≤ length) :
    ∀ j, (write_trace length v n).1 j = if j < n then v j else 0 := by
  induction n with
  | zero => intro j; simp [write_trace]
  | succ m ih =>
      intro j
      have hm : m ≤ length := by omega
      have hcur : (write_trace length v m).2 = m := write_trace_cursor length v m (by omega)
      show Function.update (write_trace length v m).1 (write_trace length v m).2 (v m) j = _
      rw [hcur, Function.update_apply]
      rcases eq_or_ne j m with hj | hj
      · subst hj
        simp
      · rw [if_neg hj, ih hm j]
        by_cases hlt : j < m
        · rw [if_pos hlt, if_pos (by omega)]
        · rw [if_neg hlt, if_neg (by omega)]

/-- C3 (amended): after writing a sequence of `N < buffer_length` values
(one per step, cursor advancing each step), a read performed at the current
step — after the current step's write, before the cursor advances, as in
`get_dynamic_rates` — with requested delay `k ≤ N - 1` returns exactly the
value written `k` steps before the current step; `k = 0` gives the value
written at the current step.  (The claim's bound `k ≤ N` fails at `k = N`:
that delay reaches one slot before the first write, still holding the
initial 0 — see the counterexample.) -/
theorem claim_C3_roundtrip (length N k : ℕ) (v : ℕ → ℝ)
    (hN : N < length) (hk : k < N) :
    read_delayed length (write_trace length v N).1 (write_trace length v (N - 1)).2 k =
      v (N - 1 - k) := by
  have hcur : (write_trace length v (N - 1)).2 = N - 1 :=
    write_trace_cursor length v (N - 1) (by omega)
  rw [hcur]
  unfold read_delayed
  have hmin : min ((k : ℤ)) ((length : ℤ)) = (k : ℤ) :=
    min_eq_left (by exact_mod_cast (by omega : k ≤ length))
  have hidx : (get_index (N - 1) k length).toNat = N - 1 - k := by
    unfold get_index
    simp only [hmin]
    rw [if_neg (by omega)]
    omega
  rw [hidx, write_trace_memory length v N (by omega) (N - 1 - k),
    if_pos (by omega)]

/-- Witness for the amended C3 at buffer length 61, `N = 3` writes of the
values `v n = n`, delay `k = 1`. -/
theorem claim_C3_roundtrip_witness :
    3 < 61 ∧ 1 < 3 ∧
    read_delayed 61 (write_trace 61 (fun n => (n : ℝ)) 3).1
        (write_trace 61 (fun n => (n : ℝ)) (3 - 1)).2 1 =
      ((3 - 1 - 1 : ℕ) : ℝ) :=
  ⟨by decide, by decide,
   claim_C3_roundtrip 61 3 1 (fun n => (n : ℝ)) (by decide) (by decide)⟩

/-- Counterexample to C3 as stated: with `N = 1` value (the value 5)
written into a fresh length-61 buffer, the claim's range `k ≤ N` admits
`k = 1`, but the read with delay 1 at the current step returns the
initial 0 — there is no value written one step before the first step, and
the result differs from every written value. -/
theorem claim_C3_roundtrip_counterexample :
    read_delayed 61 (write_trace 61 (fun _ => (5 : ℝ)) 1).1
        (write_trace 61 (fun _ => (5 : ℝ)) 0).2 1 = 0 ∧
    (0 : ℝ) ≠ 5 := by
  constructor
  · show (Function.update (fun _ => (0 : ℝ)) 0 5) (get_index 0 1 61).toNat = 0
    have : (get_index 0 1 61).toNat = 60 := by decide
    rw [this, Function.update_apply, if_neg (by omega)]
  · norm_num

/-- C4 (amended): when a delayed-sample read requests a delay `k` at least
the buffer length, `_get_index` clamps the delay to the buffer length, which
wraps all the way around to the cursor's own slot — the slot written at the
current step.  The value returned is therefore the sample just written (the
newest), not the oldest value in the buffer; no error is raised. -/
theorem claim_C4_saturation_newest (length : ℕ) (memory : ℕ → ℝ)
    (idx k : ℕ) (v : ℝ) (hidx : idx < length) (hk : length ≤ k) :
    read_delayed length (Function.update memory idx v) idx k = v := by
  unfold read_delayed
  have hmin : min ((k : ℤ)) ((length : ℤ)) = (length : ℤ) :=
    min_eq_right (by exact_mod_cast hk)
  have hι : (get_index idx k length).toNat = idx := by
    unfold get_index
    simp only [hmin]
    split <;> omega
  rw [hι, Function.update_apply, if_pos rfl]

/-- Witness for the amended C4: buffer length 3, fresh memory, value 9
written at cursor 2, read with delay 4. -/
theorem claim_C4_saturation_newest_witness :
    2 < 3 ∧ 3 ≤ 4 ∧
    read_delayed 3 (Function.update (fun _ => (0 : ℝ)) 2 9) 2 4 = 9 :=
  ⟨by decide, by decide,
   claim_C4_saturation_newest 3 (fun _ => (0 : ℝ)) 2 4 9 (by decide) (by decide)⟩

/-- Counterexample to C4 as stated: a length-3 buffer receives the writes
5, 7, 9; during the third call (cursor 2, having just written 9) a read
with delay `4 > 3` returns 9 — the sample just written — while the slot the
cursor will next overwrite (slot 0, the cursor position after this call)
holds the oldest value 5, and `9 ≠ 5`. -/
theorem claim_C4_saturation_newest_counterexample :
    read_delayed 3 (write_trace 3 (fun n => (5 : ℝ) + 2 * n) 3).1
        (write_trace 3 (fun n => (5 : ℝ) + 2 * n) 2).2 4 = 9 ∧
    (write_trace 3 (fun n => (5 : ℝ) + 2 * n) 3).1
        ((write_trace 3 (fun n => (5 : ℝ) + 2 * n) 3).2) = 5 ∧
    (9 : ℝ) ≠ 5 := by
  have h2 : (write_trace 3 (fun n => (5 : ℝ) + 2 * n) 2).2 = 2 :=
    write_trace_cursor 3 _ 2 (by omega)
  have hmem : ∀ j, (write_trace 3 (fun n => (5 : ℝ) + 2 * n) 3).1 j =
      if j < 3 then (5 : ℝ) + 2 * j else 0 :=
    write_trace_memory 3 _ 3 (le_refl 3)
  have hwrap : (write_trace 3 (fun n => (5 : ℝ) + 2 * n) 3).2 = 0 := by
    show advance_index 3 (write_trace 3 (fun n => (5 : ℝ) + 2 * n) 2).2 = 0
    rw [h2]
    rfl
  refine ⟨?_, ?_, by norm_num⟩
  · rw [h2]
    unfold read_delayed
    have hι : (get_index 2 4 3).toNat = 2 := by decide
    rw [hι, hmem 2, if_pos (by omega)]
    norm_num
  · rw [hwrap, hmem 0, if_pos (by omega)]
    norm_num

/-! ### Construction-time parameters (`TamuraDynamics.__init__`) -/

/-- Embedding of the history sizing at construction (line 89):
`latency_steps = max_latency/dt + 1 + self.late_additional_latency`, a
fractional value that `np.zeros((1, latency_steps))` truncates to an
integer slot count.  The division is modelled exactly over `ℚ` and the
truncation of the (positive) value as the floor. -/
def memory_length_init (dt max_latency : ℚ) : ℤ :=
  ⌊max_latency / dt + 1 + (late_additional_latency : ℚ)⌋

/-- `self.min_latencies = .09 + .01*np.random.rand(1)`, with `r` the
uniform draw in `[0, 1)`. -/
noncomputable def min_latencies_init (r : ℝ) : ℝ := 0.09 + 0.01 * r

/-- `self.max_latencies = np.minimum(max_latency, self.min_latencies + np.random.gamma(5, .02, 1))`,
with `g` the Gamma(5, 0.02) draw (nonnegative). -/
noncomputable def max_latencies_init (max_latency r g : ℝ) : ℝ :=
  min max_latency (min_latencies_init r + g)

/-- `self.tau_latencies = np.random.gamma(2, 20, 1)`, with `g2` the
Gamma(2, 20) draw (positive). -/
noncomputable def tau_latencies_init (g2 : ℝ) : ℝ := g2

/-- C8 (amended): each of the two history sequences is allocated with
exactly `⌊max_latency/dt⌋ + 1 + late_extra_delay_steps` slots
(`late_extra_delay_steps = 10`) — the fractional step count is truncated,
not rounded up, which differs from the claimed `ceil` exactly when
`max_latency/dt` is not an integer — and the single write cursor shared by
both sequences advances modulo that length each step (both in the buffer
write discipline and inside the per-step update). -/
theorem claim_C8_buffer_sizing (dt max_latency : ℚ) (idx L : ℕ)
    (p : TamuraParams) (s : TamuraState) (early_rates late_rates : ℝ)
    (hidx : idx < L) :
    memory_length_init dt max_latency =
      ⌊max_latency / dt⌋ + 1 + (late_additional_latency : ℤ) ∧
    advance_index L idx = (idx + 1) % L ∧
    (get_dynamic_rates p s early_rates late_rates).1.memory_index =
      advance_index p.memory_length s.memory_index := by
  refine ⟨?_, ?_, rfl⟩
  · unfold memory_length_init late_additional_latency
    have h : max_latency / dt + 1 + ((10 : ℕ) : ℚ) =
        max_latency / dt + ((11 : ℤ) : ℚ) := by push_cast; ring
    rw [h, Int.floor_add_int]
    omega
  · unfold advance_index
    by_cases h : idx + 1 = L
    · rw [if_pos h, h, Nat.mod_self]
    · rw [if_neg h, Nat.mod_eq_of_lt (by omega)]

/-- Witness for the amended C8 at `dt = 1/200`, `max_latency = 1/4`
(the 61-slot default shape), cursor 5 in a length-61 buffer, and an
arbitrary concrete engine state. -/
theorem claim_C8_buffer_sizing_witness :
    5 < 61 ∧
    (memory_length_init (1/200) (1/4) =
       ⌊(1/4 : ℚ) / (1/200)⌋ + 1 + (late_additional_latency : ℤ) ∧
     advance_index 61 5 = (5 + 1) % 61 ∧
     (get_dynamic_rates ⟨1, 0, 0, 1, 1, 1, 61⟩ initial_state 0 0).1.memory_index =
       advance_index (TamuraParams.mk 1 0 0 1 1 1 61).memory_length
         initial_state.memory_index) :=
  ⟨by decide,
   claim_C8_buffer_sizing (1/200) (1/4) 5 61 ⟨1, 0, 0, 1, 1, 1, 61⟩
     initial_state 0 0 (by decide)⟩

/-- Counterexample to C8 as stated: with `dt = 1/250` (0.004 s) and
`max_latency = 1/4`, the ratio is 62.5, so the code allocates
`⌊62.5⌋ + 1 + 10 = 73` slots while `ceil` would give
`⌈62.5⌉ + 1 + 10 = 74`. -/
theorem claim_C8_buffer_sizing_counterexample :
    memory_length_init (1/250) (1/4) = 73 ∧
    ⌈(1/4 : ℚ) / (1/250)⌉ + 1 + (late_additional_latency : ℤ) = 74 ∧
    (73 : ℤ) ≠ 74 := by
  refine ⟨?_, ?_, by decide⟩
  · unfold memory_length_init late_additional_latency
    have h : (1/4 : ℚ) / (1/250) + 1 + ((10 : ℕ) : ℚ) = 147 / 2 := by norm_num
    rw [h]
    rw [show (73 : ℤ) = ⌊(73.5 : ℚ)⌋ by norm_num [Int.floor_eq_iff]]
    norm_num
  · unfold late_additional_latency
    have h : (1/4 : ℚ) / (1/250) = 125 / 2 := by norm_num
    rw [h]
    rw [show ⌈(125 / 2 : ℚ)⌉ = 63 by norm_num [Int.ceil_eq_iff]]
    norm_num

/-- Counterexample to C9 as stated: the claim quantifies over every
caller-supplied latency ceiling, but a ceiling of 0.05 (below every
possible `min_latencies` draw) makes `max_latencies < min_latencies`:
with uniform draw `r = 0` and Gamma draw `g = 0.01`,
`min_latencies = 0.09` while `max_latencies = min(0.05, 0.10) = 0.05`. -/
theorem claim_C9_latency_params_counterexample :
    (0 : ℝ) ≤ 0 ∧ (0 : ℝ) < 1 ∧ (0 : ℝ) ≤ 0.01 ∧
    min_latencies_init 0 = 0.09 ∧
    max_latencies_init 0.05 0 0.01 = 0.05 ∧
    ¬ min_latencies_init 0 ≤ max_latencies_init 0.05 0 0.01 := by
  norm_num [min_latencies_init, max_latencies_init]

/-- C9 (amended): for every construction (every outcome `r ∈ [0,1)` of the
uniform draw, every nonnegative Gamma draw `g`, every positive Gamma draw
`g2`) and every caller-supplied ceiling of at least 0.1 — an upper bound
for every possible `min_latencies` draw — the latency parameters satisfy
`min_latency ≤ max_latency ≤ ceiling` and `tau_latency > 0`.  (In the
functional embedding the parameters are fixed at construction and the
per-step update never modifies them.) -/
theorem claim_C9_latency_params (max_latency r g g2 : ℝ)
    (hceil : 0.1 ≤ max_latency) (hr0 : 0 ≤ r) (hr1 : r < 1)
    (hg : 0 ≤ g) (hg2 : 0 < g2) :
    min_latencies_init r ≤ max_latencies_init max_latency r g ∧
    max_latencies_init max_latency r g ≤ max_latency ∧
    0 < tau_latencies_init g2 := by
  unfold tau_latencies_init max_latencies_init
  refine ⟨le_min ?_ ?_, min_le_left _ _, hg2⟩
  · unfold min_latencies_init
    nlinarith
  · linarith

/-- Witness for the amended C9 at ceiling 0.25, uniform draw 0.5, Gamma
draws 0.07 and 40. -/
theorem claim_C9_latency_params_witness :
    (0.1 : ℝ) ≤ 0.25 ∧ (0 : ℝ) ≤ 0.5 ∧ (0.5 : ℝ) < 1 ∧ (0 : ℝ) ≤ 0.07 ∧
    (0 : ℝ) < 40 ∧
    (min_latencies_init 0.5 ≤ max_latencies_init 0.25 0.5 0.07 ∧
     max_latencies_init 0.25 0.5 0.07 ≤ 0.25 ∧
     0 < tau_latencies_init 40) :=
  ⟨by norm_num, by norm_num, by norm_num, by norm_num, by norm_num,
   claim_C9_latency_params 0.25 0.5 0.07 40
     (by norm_num) (by norm_num) (by norm_num) (by norm_num) (by norm_num)⟩

/-! ### Neuron aggregator (`it_neuron_vrep.py`) -/

/-- One entry of the scene description (`ground_truth_list`):
`[object_name, x, y, size, rot_x, rot_y, rot_z, vis_nondiag, vis_diag]`. -/
structure GroundTruth where
  obj : String
  x : ℚ
  y : ℚ
  size : ℚ
  rot_x : ℚ
  rot_y : ℚ
  rot_z : ℚ
  vis_nd : ℚ
  vis_d : ℚ

/-- `object_dict.get(obj, 0)`: selectivity lookup defaulting to 0 for
unknown objects (`obj_pref_list = np.array([object_dict.get(obj, 0) for obj in objects])`). -/
def dict_get (object_dict : List (String × ℚ)) (obj : String) : ℚ :=
  match object_dict.find? (fun entry => entry.1 == obj) with
  | some entry => entry.2
  | none => 0

/-- `CompleteTolerance.firing_rate_modifier`: returns 1 no matter what
inputs are provided. -/
def complete_tolerance_modifier (args : List ℚ) : ℚ := 1

/-- Modelled from the spec: `ClutterTolerance/averaging_clutter_profile.py`
(`AveragingClutterProfile.firing_rate_modifier`) belongs to the repository
but is not under src/.  Per the spec it combines the objects' isolated
rates and position weights into one joint static rate, the position
weights being "used to weight isolated responses to get a single clutter
response"; modelled as the position-weighted average of the isolated rates
(0 when the weights sum to 0), which on a single isolated object with
weight 1 returns that object's isolated rate. -/
def averaging_clutter_modifier (isolated_rates position_weights : List ℚ) : ℚ :=
  let total := position_weights.sum
  if total = 0 then 0
  else (List.zipWith (fun rate weight => rate * weight)
          isolated_rates position_weights).sum / total

/-- The aggregator-relevant configuration of a `Neuron` without a dynamics
profile: the selectivity mapping (`selectivity.objects`), the maximum
firing rate, and the three tolerance-profile modifier functions (each the
constant-1 `CompleteTolerance` modifier when unconfigured). -/
structure NeuronModel where
  objects : List (String × ℚ)
  max_fire_rate : ℚ
  position_modifier : ℚ → ℚ → ℚ
  size_modifier : ℚ → ℚ
  occlusion_modifier : ℚ → ℚ → ℚ

/-- Embedding of `Neuron._get_static_firing_rate`: per object, look up the
selectivity preference (default 0) and multiply by the maximum firing rate
and the position, size and occlusion modifiers to get the isolated rates;
combine them with the clutter profile weighted by the position modifiers. -/
def get_static_firing_rate (n : NeuronModel) (object_dict : List (String × ℚ))
    (ground_truth_list : List GroundTruth) : ℚ :=
  let position_weights :=
    ground_truth_list.map (fun g => n.position_modifier g.x g.y)
  let isolated_rates := ground_truth_list.map (fun g =>
    n.max_fire_rate * dict_get object_dict g.obj *
      n.position_modifier g.x g.y * n.size_modifier g.size *
      n.occlusion_modifier g.vis_nd g.vis_d)
  averaging_clutter_modifier isolated_rates position_weights

/-- Embedding of the `self.dynamics is None` branch of `Neuron.firing_rate`:
`rate = 0`, replaced by the static rate when the scene list is nonempty
(Python truthiness of `ground_truth_list`). -/
def firing_rate_no_dynamics (n : NeuronModel)
    (ground_truth_list : List GroundTruth) : ℚ :=
  if ground_truth_list.isEmpty then 0
  else get_static_firing_rate n n.objects ground_truth_list

/-- The C6 scenario neuron: preference table `{A: 0.5}`, maximum firing
rate 100, all tolerance profiles the constant-1 `CompleteTolerance`. -/
def neuron_C6 : NeuronModel where
  objects := [("A", 1/2)]
  max_fire_rate := 100
  position_modifier := fun x y => complete_tolerance_modifier [x, y]
  size_modifier := fun s => complete_tolerance_modifier [s]
  occlusion_modifier := fun vis_nd vis_d => complete_tolerance_modifier [vis_nd, vis_d]

/-- C6: the neuron with no dynamics profile, preference table `{A: 0.5}`,
`max_fire_rate = 100` and constant-1 tolerance modifiers returns exactly
50 on the single-object scene `[("A", x, y, size, 0, 0, 0, 1, 1)]`
(the product `100 × 0.5 × 1 × 1 × 1`, the clutter combination of one
isolated rate yielding that rate); the selectivity lookup of every object
other than `A` yields 0. -/
theorem claim_C6_end_to_end (x y size : ℚ) :
    firing_rate_no_dynamics neuron_C6 [⟨"A", x, y, size, 0, 0, 0, 1, 1⟩] = 50 ∧
    (∀ obj : String, dict_get neuron_C6.objects obj =
      if obj = "A" then 1/2 else 0) := by
  constructor
  · norm_num [firing_rate_no_dynamics, get_static_firing_rate, neuron_C6,
      averaging_clutter_modifier, complete_tolerance_modifier, dict_get]
  · intro obj
    by_cases h : obj = "A"
    · subst h
      norm_num [dict_get, neuron_C6]
    · have hbeq : ("A" == obj) = false := beq_eq_false_iff_ne.mpr (Ne.symm h)
      simp [dict_get, neuron_C6, hbeq, h]

/-- The outputs of a sequence of aggregator calls on a neuron with no
dynamics profile, one output per scene in call order.  Without a dynamics
profile, `Neuron.firing_rate` reads and mutates no neuron state, so the
call history is a pure map over the scenes. -/
def firing_rate_trace (n : NeuronModel)
    (scenes : List (List GroundTruth)) : List ℚ :=
  scenes.map (firing_rate_no_dynamics n)

/-- C7: for every neuron without a dynamics profile, every call whose scene
is empty returns 0 — whichever call it is in the sequence and whatever the
earlier (or later) calls received. -/
theorem claim_C7_empty_scene_zero (n : NeuronModel)
    (scenes : List (List GroundTruth)) (i : ℕ)
    (hi : i < scenes.length) (h : scenes.getD i [] = []) :
    (firing_rate_trace n scenes).getD i 1 = 0 := by
  unfold firing_rate_trace
  rw [List.getD_eq_getElem?_getD, List.getElem?_map,
    List.getElem?_eq_getElem hi]
  have h' : scenes.get ⟨i, hi⟩ = [] := by
    rwa [List.getD_eq_getElem?_getD, List.getElem?_eq_getElem hi] at h
  simp only [List.get_eq_getElem] at h'
  rw [h']
  rfl

/-- Witness for C7: the neuron of the C6 scenario and the call sequence
(nonempty scene, empty scene, nonempty scene), checked at the second call. -/
theorem claim_C7_empty_scene_zero_witness :
    1 < ([[GroundTruth.mk "A" 0 0 0 0 0 0 1 1], [],
          [GroundTruth.mk "A" 0 0 0 0 0 0 1 1]] : List (List GroundTruth)).length ∧
    ([[GroundTruth.mk "A" 0 0 0 0 0 0 1 1], [],
      [GroundTruth.mk "A" 0 0 0 0 0 0 1 1]] : List (List GroundTruth)).getD 1 [] = [] ∧
    (firing_rate_trace neuron_C6
      [[GroundTruth.mk "A" 0 0 0 0 0 0 1 1], [],
       [GroundTruth.mk "A" 0 0 0 0 0 0 1 1]]).getD 1 1 = 0 :=
  ⟨by norm_num, rfl,
   claim_C7_empty_scene_zero neuron_C6
     [[GroundTruth.mk "A" 0 0 0 0 0 0 1 1], [],
      [GroundTruth.mk "A" 0 0 0 0 0 0 1 1]] 1 (by norm_num) rfl⟩
